import Mathlib

/-!
Shallow embedding of the chat subsystem of the campussales backend
(ChatService in src/chat/chat.service.ts and ChatGateway in
src/chat/chat.gateway.ts), together with proofs about the claims on
conversation creation, message status transitions, authorization,
read receipts, notification fan-out, typing timers and presence.

Identifiers (user ids, conversation ids, message ids, socket ids) are
modelled as `Nat`; timestamps as `Nat`; message content as `String`.
-/

namespace Campussales

/-- enum MessageType from chat.enums.ts -/
inductive MessageType
  | text
  | image
  | file
deriving DecidableEq, Repr

/-- enum MessageStatus from chat.enums.ts -/
inductive MessageStatus
  | sent
  | delivered
  | read
deriving DecidableEq, Repr

/-- enum ConversationType from chat.enums.ts -/
inductive ConversationType
  | direct
  | product_inquiry
deriving DecidableEq, Repr

/-- Conversation entity: id, type, optional productId, updatedAt. -/
structure Conversation where
  id : Nat
  type : ConversationType
  productId : Option Nat
  updatedAt : Nat
deriving DecidableEq, Repr

/-- ConversationParticipant entity: (conversationId, userId) with nullable lastReadAt. -/
structure Participant where
  conversationId : Nat
  userId : Nat
  lastReadAt : Option Nat
deriving DecidableEq, Repr

/-- Message entity. -/
structure Message where
  id : Nat
  conversationId : Nat
  senderId : Nat
  content : String
  type : MessageType
  status : MessageStatus
  createdAt : Nat
deriving DecidableEq, Repr

/-- The persistent store the three repositories range over, plus a
fresh-id counter and the current wall clock (`new Date()`). -/
structure ChatState where
  conversations : List Conversation
  participants : List Participant
  messages : List Message
  nextId : Nat
  now : Nat
deriving DecidableEq, Repr

/-- Error taxonomy of the service (NestJS exceptions). -/
inductive ChatError
  | notFound
  | forbidden
  | badRequest
deriving DecidableEq, Repr

/-- CreateConversationDto: participantId, optional productId, optional type. -/
structure CreateConversationDto where
  participantId : Nat
  productId : Option Nat
  type : Option ConversationType
deriving DecidableEq, Repr

/-- SendMessageDto: content, optional type, optional attachmentUrl/replyToId
(the latter two do not affect any claim and carry through unchanged). -/
structure SendMessageDto where
  content : String
  type : Option MessageType
deriving DecidableEq, Repr

/-- The dedup condition of ChatService.findExistingDirectConversation: both
users are among the conversation's participants and the product context
matches (`c.productId = :productId` when given, `c.productId IS NULL`
otherwise). -/
def directMatch (parts : List Participant) (userId otherUserId : Nat)
    (productId : Option Nat) (c : Conversation) : Bool :=
  (parts.any (fun p => decide (p.conversationId = c.id ∧ p.userId = userId))) &&
  (parts.any (fun p => decide (p.conversationId = c.id ∧ p.userId = otherUserId))) &&
  (match productId with
   | some pid => decide (c.productId = some pid)
   | none => decide (c.productId = none))

/-- ChatService.findExistingDirectConversation: the first conversation
satisfying the dedup condition (the query builder's getOne). -/
def findExistingDirectConversation (userId otherUserId : Nat) (productId : Option Nat)
    (st : ChatState) : Option Conversation :=
  (st.conversations.filter (directMatch st.participants userId otherUserId productId)).head?

/-- ChatService.getConversationById: NotFound if the id is absent,
Forbidden (assertParticipant) if the requester is not a participant. -/
def getConversationById (conversationId userId : Nat) (st : ChatState) :
    Except ChatError Conversation :=
  match st.conversations.find? (fun c => decide (c.id = conversationId)) with
  | none => .error .notFound
  | some c =>
    if st.participants.any (fun p => decide (p.conversationId = conversationId ∧ p.userId = userId))
    then .ok c
    else .error .forbidden

/-- The type given to a newly created conversation:
`dto.productId ? PRODUCT_INQUIRY : dto.type || DIRECT`. -/
def newConversationType (productId : Option Nat) (ty : Option ConversationType) :
    ConversationType :=
  match productId with
  | some _ => ConversationType.product_inquiry
  | none => ty.getD ConversationType.direct

/-- ChatService.createConversation: rejects self-conversation, returns the
existing direct conversation when the dedup lookup finds one, otherwise
creates the conversation (type PRODUCT_INQUIRY when productId is given,
else `dto.type || DIRECT`) together with both participant rows.
Returns the conversation id and the new state. -/
def createConversation (userId : Nat) (dto : CreateConversationDto) (st : ChatState) :
    Except ChatError (Nat × ChatState) :=
  if userId = dto.participantId then .error .badRequest
  else
    match findExistingDirectConversation userId dto.participantId dto.productId st with
    | some existing =>
      match getConversationById existing.id userId st with
      | .ok c => .ok (c.id, st)
      | .error e => .error e
    | none =>
      let cid := st.nextId
      let conv : Conversation :=
        { id := cid
          type := newConversationType dto.productId dto.type
          productId := dto.productId
          updatedAt := st.now }
      let st' : ChatState :=
        { st with
          conversations := st.conversations ++ [conv]
          participants := st.participants ++
            [{ conversationId := cid, userId := userId, lastReadAt := none },
             { conversationId := cid, userId := dto.participantId, lastReadAt := none }]
          nextId := st.nextId + 1 }
      .ok (cid, st')

/-- Well-formedness: every stored row's conversation id is below the fresh
counter (TypeORM generates fresh primary keys). -/
def ChatState.WF (st : ChatState) : Prop :=
  (∀ c ∈ st.conversations, c.id < st.nextId) ∧
  (∀ p ∈ st.participants, p.conversationId < st.nextId)

instance (st : ChatState) : Decidable st.WF := by
  unfold ChatState.WF; infer_instance

/-- Position of a status in ChatService.updateMessageStatus's
`statusOrder = [SENT, DELIVERED, READ]` (Array.indexOf). -/
def statusIdx : MessageStatus → Nat
  | .sent => 0
  | .delivered => 1
  | .read => 2

/-- ChatService.updateMessageStatus: NotFound when the message id is
absent; returns the message unchanged when the requested status is at or
before the current one; otherwise stores the requested status. -/
def updateMessageStatus (messageId : Nat) (status : MessageStatus) (st : ChatState) :
    Except ChatError (Message × ChatState) :=
  match st.messages.find? (fun m => decide (m.id = messageId)) with
  | none => .error .notFound
  | some m =>
    if statusIdx status ≤ statusIdx m.status then .ok (m, st)
    else
      let m' := { m with status := status }
      .ok (m', { st with
        messages := st.messages.map (fun x => if x.id = messageId then m' else x) })

/-- ChatService.sendMessage: authorizes via getConversationById, inserts a
message with status SENT at the current time, and bumps the conversation's
updatedAt. Returns the stored message and the new state. -/
def sendMessage (conversationId senderId : Nat) (dto : SendMessageDto) (st : ChatState) :
    Except ChatError (Message × ChatState) :=
  match getConversationById conversationId senderId st with
  | .error e => .error e
  | .ok _ =>
    let m : Message :=
      { id := st.nextId
        conversationId := conversationId
        senderId := senderId
        content := dto.content
        type := dto.type.getD MessageType.text
        status := .sent
        createdAt := st.now }
    .ok (m, { st with
      messages := st.messages ++ [m]
      nextId := st.nextId + 1
      conversations := st.conversations.map (fun c =>
        if c.id = conversationId then { c with updatedAt := st.now } else c) })

/-- ChatService.getMessages: authorizes via getConversationById, then pages
through the conversation's messages newest-first and reverses the page to
chronological order. -/
def getMessages (conversationId userId : Nat) (page limit : Nat) (st : ChatState) :
    Except ChatError (List Message) :=
  match getConversationById conversationId userId st with
  | .error e => .error e
  | .ok _ =>
    let msgs := st.messages.filter (fun m => decide (m.conversationId = conversationId))
    let sorted := msgs.mergeSort (fun a b => b.createdAt ≤ a.createdAt)
    .ok (((sorted.drop ((page - 1) * limit)).take limit).reverse)

/-- ChatService.markAsRead: authorizes via getConversationById, sets the
participant's lastReadAt to now, and transitions every message in the
conversation from another sender that is not already READ to READ. -/
def markAsRead (conversationId userId : Nat) (st : ChatState) :
    Except ChatError ChatState :=
  match getConversationById conversationId userId st with
  | .error e => .error e
  | .ok _ =>
    .ok { st with
      participants := st.participants.map (fun p =>
        if p.conversationId = conversationId ∧ p.userId = userId
        then { p with lastReadAt := some st.now } else p)
      messages := st.messages.map (fun m =>
        if m.conversationId = conversationId ∧ m.senderId ≠ userId ∧ m.status ≠ .read
        then { m with status := .read } else m) }

/-- ChatService.getUnreadCount: 0 when the participant row is absent;
otherwise the number of messages in the conversation from other senders,
restricted to those created after lastReadAt when it is set. -/
def getUnreadCount (conversationId userId : Nat) (st : ChatState) : Nat :=
  match st.participants.find?
      (fun p => decide (p.conversationId = conversationId ∧ p.userId = userId)) with
  | none => 0
  | some participant =>
    (st.messages.filter (fun m =>
      decide (m.conversationId = conversationId) &&
      decide (m.senderId ≠ userId) &&
      (match participant.lastReadAt with
       | some t => decide (t < m.createdAt)
       | none => true))).length

/-! ## Helper lemmas -/

theorem directMatch_comm (parts : List Participant) (A B : Nat) (pid : Option Nat)
    (c : Conversation) :
    directMatch parts A B pid c = directMatch parts B A pid c := by
  unfold directMatch
  rw [Bool.and_comm (parts.any fun p => decide (p.conversationId = c.id ∧ p.userId = A))]

theorem any_user_eq_false_of_fresh (extra : List Participant) (c : Conversation) (u : Nat)
    (h : ∀ q ∈ extra, q.conversationId ≠ c.id) :
    (extra.any (fun p => decide (p.conversationId = c.id ∧ p.userId = u))) = false := by
  by_contra hcon
  rw [Bool.not_eq_false, List.any_eq_true] at hcon
  obtain ⟨q, hq, hq2⟩ := hcon
  rw [decide_eq_true_eq] at hq2
  exact h q hq hq2.1

theorem directMatch_append_fresh (parts extra : List Participant) (A B : Nat)
    (pid : Option Nat) (c : Conversation)
    (h : ∀ q ∈ extra, q.conversationId ≠ c.id) :
    directMatch (parts ++ extra) A B pid c = directMatch parts A B pid c := by
  unfold directMatch
  rw [List.any_append, List.any_append,
    any_user_eq_false_of_fresh extra c A h, any_user_eq_false_of_fresh extra c B h,
    Bool.or_false, Bool.or_false]

theorem findExisting_mem (A B : Nat) (pid : Option Nat) (st : ChatState) (e : Conversation)
    (h : findExistingDirectConversation A B pid st = some e) :
    e ∈ st.conversations ∧ directMatch st.participants A B pid e = true := by
  unfold findExistingDirectConversation at h
  cases hf : st.conversations.filter (directMatch st.participants A B pid) with
  | nil => rw [hf] at h; simp at h
  | cons x t =>
    rw [hf] at h
    simp only [List.head?_cons, Option.some.injEq] at h
    have hx : e ∈ st.conversations.filter (directMatch st.participants A B pid) := by
      rw [hf, ← h]; exact List.mem_cons_self x t
    rw [List.mem_filter] at hx
    exact hx

theorem findExisting_none (A B : Nat) (pid : Option Nat) (st : ChatState)
    (h : findExistingDirectConversation A B pid st = none) :
    ∀ c ∈ st.conversations, directMatch st.participants A B pid c = false := by
  unfold findExistingDirectConversation at h
  rw [List.head?_eq_none_iff, List.filter_eq_nil_iff] at h
  intro c hc
  exact Bool.eq_false_iff.mpr (h c hc)

theorem getConversationById_ok (cid u : Nat) (st : ChatState) (c : Conversation)
    (hfindc : st.conversations.find? (fun x => decide (x.id = cid)) = some c)
    (hany : st.participants.any
      (fun p => decide (p.conversationId = cid ∧ p.userId = u)) = true) :
    getConversationById cid u st = .ok c := by
  unfold getConversationById
  rw [hfindc]
  simp only [hany, if_true]

theorem createConversation_existing (A : Nat) (dto : CreateConversationDto)
    (st : ChatState) (e c : Conversation)
    (hne : A ≠ dto.participantId)
    (hfind : findExistingDirectConversation A dto.participantId dto.productId st = some e)
    (hg : getConversationById e.id A st = .ok c) :
    createConversation A dto st = .ok (c.id, st) := by
  unfold createConversation
  rw [if_neg hne, hfind]
  simp only [hg]

/-! ## C1 -/

/-- C1: for distinct users A and B and any product context, a second
createConversation call after a successful first one returns the same
conversation id and leaves the store unchanged (get-or-create is
idempotent, also with the participants swapped), and the dedup lookup
distinguishes the "no product" context from every "product X" context. -/
theorem createConversation_get_or_create_idempotent
    (A B : Nat) (pid : Option Nat) (ty ty' : Option ConversationType)
    (st st' : ChatState) (i : Nat)
    (hAB : A ≠ B) (hwf : st.WF)
    (h1 : createConversation A ⟨B, pid, ty⟩ st = .ok (i, st')) :
    createConversation A ⟨B, pid, ty'⟩ st' = .ok (i, st') ∧
    createConversation B ⟨A, pid, ty'⟩ st' = .ok (i, st') ∧
    (∀ (s : ChatState) (c : Conversation) (p : Nat),
      findExistingDirectConversation A B (some p) s = some c → c.productId = some p) ∧
    (∀ (s : ChatState) (c : Conversation),
      findExistingDirectConversation A B none s = some c → c.productId = none) := by
  have hctx1 : ∀ (s : ChatState) (c : Conversation) (p : Nat),
      findExistingDirectConversation A B (some p) s = some c → c.productId = some p := by
    intro s c p h
    have hdm := (findExisting_mem A B (some p) s c h).2
    unfold directMatch at hdm
    simp only [Bool.and_eq_true, decide_eq_true_eq] at hdm
    exact hdm.2
  have hctx2 : ∀ (s : ChatState) (c : Conversation),
      findExistingDirectConversation A B none s = some c → c.productId = none := by
    intro s c h
    have hdm := (findExisting_mem A B none s c h).2
    unfold directMatch at hdm
    simp only [Bool.and_eq_true, decide_eq_true_eq] at hdm
    exact hdm.2
  cases hfind : findExistingDirectConversation A B pid st with
  | some e =>
    obtain ⟨hmem, hdm⟩ := findExisting_mem A B pid st e hfind
    unfold directMatch at hdm
    simp only [Bool.and_eq_true] at hdm
    obtain ⟨⟨hanyA, hanyB⟩, _⟩ := hdm
    have hsome : (st.conversations.find? (fun x => decide (x.id = e.id))).isSome := by
      rw [List.find?_isSome]
      exact ⟨e, hmem, by simp⟩
    cases hfc : st.conversations.find? (fun x => decide (x.id = e.id)) with
    | none => rw [hfc] at hsome; simp at hsome
    | some c =>
      have hgA : getConversationById e.id A st = .ok c :=
        getConversationById_ok e.id A st c hfc hanyA
      have hgB : getConversationById e.id B st = .ok c :=
        getConversationById_ok e.id B st c hfc hanyB
      have h1' : createConversation A ⟨B, pid, ty⟩ st = .ok (c.id, st) :=
        createConversation_existing A ⟨B, pid, ty⟩ st e c hAB hfind hgA
      have heq := h1'.symm.trans h1
      simp only [Except.ok.injEq, Prod.mk.injEq] at heq
      obtain ⟨hic, hst⟩ := heq
      subst hic
      subst hst
      have hfindBA : findExistingDirectConversation B A pid st = some e := by
        unfold findExistingDirectConversation at hfind ⊢
        rw [List.filter_congr (fun c _ => directMatch_comm st.participants B A pid c)]
        exact hfind
      refine ⟨?_, ?_, hctx1, hctx2⟩
      · exact createConversation_existing A ⟨B, pid, ty'⟩ st e c hAB hfind hgA
      · exact createConversation_existing B ⟨A, pid, ty'⟩ st e c (Ne.symm hAB) hfindBA hgB
  | none =>
    have hfresh2 : ∀ q ∈ [(⟨st.nextId, A, none⟩ : Participant),
        (⟨st.nextId, B, none⟩ : Participant)], q.conversationId = st.nextId := by
      intro q hq
      simp only [List.mem_cons, List.not_mem_nil, or_false] at hq
      rcases hq with h | h <;> subst h <;> rfl
    have h1' : createConversation A ⟨B, pid, ty⟩ st =
        .ok (st.nextId,
          { st with
            conversations := st.conversations ++
              [{ id := st.nextId
                 type := newConversationType pid ty
                 productId := pid
                 updatedAt := st.now }]
            participants := st.participants ++
              [⟨st.nextId, A, none⟩, ⟨st.nextId, B, none⟩]
            nextId := st.nextId + 1 }) := by
      unfold createConversation
      rw [if_neg hAB, hfind]
    have heq := h1'.symm.trans h1
    simp only [Except.ok.injEq, Prod.mk.injEq] at heq
    obtain ⟨hic, hst⟩ := heq
    subst hic
    subst hst
    set conv : Conversation :=
      { id := st.nextId
        type := newConversationType pid ty
        productId := pid
        updatedAt := st.now } with hconvdef
    set parts' : List Participant :=
      st.participants ++ [⟨st.nextId, A, none⟩, ⟨st.nextId, B, none⟩] with hparts'
    have hpref : ∀ (A' B' : Nat),
        st.conversations.filter (directMatch parts' A' B' pid) =
        st.conversations.filter (directMatch st.participants A' B' pid) := by
      intro A' B'
      apply List.filter_congr
      intro c hc
      rw [hparts']
      apply directMatch_append_fresh
      intro q hq
      have hqe : q.conversationId = st.nextId := hfresh2 q hq
      rw [hqe]
      exact Ne.symm (Nat.ne_of_lt (hwf.1 c hc))
    have hconvmatch : ∀ (A' B' : Nat), (A' = A ∨ A' = B) → (B' = A ∨ B' = B) →
        directMatch parts' A' B' pid conv = true := by
      intro A' B' hA' hB'
      unfold directMatch
      rw [Bool.and_eq_true, Bool.and_eq_true]
      refine ⟨⟨?_, ?_⟩, ?_⟩
      · rw [List.any_eq_true]
        rcases hA' with h | h
        · exact ⟨⟨st.nextId, A, none⟩, by simp [hparts'], by simp [h, hconvdef]⟩
        · exact ⟨⟨st.nextId, B, none⟩, by simp [hparts'], by simp [h, hconvdef]⟩
      · rw [List.any_eq_true]
        rcases hB' with h | h
        · exact ⟨⟨st.nextId, A, none⟩, by simp [hparts'], by simp [h, hconvdef]⟩
        · exact ⟨⟨st.nextId, B, none⟩, by simp [hparts'], by simp [h, hconvdef]⟩
      · cases pid <;> simp [hconvdef]
    have hfind' : ∀ (A' B' : Nat), (A' = A ∧ B' = B) ∨ (A' = B ∧ B' = A) →
        findExistingDirectConversation A' B' pid
          { st with
            conversations := st.conversations ++ [conv]
            participants := parts'
            nextId := st.nextId + 1 } = some conv := by
      intro A' B' hpair
      unfold findExistingDirectConversation
      show ((st.conversations ++ [conv]).filter (directMatch parts' A' B' pid)).head?
        = some conv
      rw [List.filter_append, hpref A' B']
      have hmatch : directMatch parts' A' B' pid conv = true := by
        rcases hpair with ⟨h1, h2⟩ | ⟨h1, h2⟩
        · exact hconvmatch A' B' (Or.inl h1) (Or.inr h2)
        · exact hconvmatch A' B' (Or.inr h1) (Or.inl h2)
      have hsingle : List.filter (directMatch parts' A' B' pid) [conv] = [conv] := by
        simp [hmatch]
      rw [hsingle]
      cases hfil : st.conversations.filter (directMatch st.participants A' B' pid) with
      | nil => simp
      | cons x t =>
        exfalso
        have hx : x ∈ st.conversations.filter (directMatch st.participants A' B' pid) := by
          rw [hfil]; exact List.mem_cons_self x t
        rw [List.mem_filter] at hx
        have hfalse : directMatch st.participants A' B' pid x = false := by
          rcases hpair with ⟨h1, h2⟩ | ⟨h1, h2⟩ <;> rw [h1, h2]
          · exact findExisting_none A B pid st hfind x hx.1
          · rw [directMatch_comm]
            exact findExisting_none A B pid st hfind x hx.1
        rw [hfalse] at hx
        exact absurd hx.2 (by simp)
    have hanyA' : parts'.any
        (fun p => decide (p.conversationId = conv.id ∧ p.userId = A)) = true := by
      rw [List.any_eq_true]
      exact ⟨⟨st.nextId, A, none⟩, by simp [hparts'], by simp [hconvdef]⟩
    have hanyB' : parts'.any
        (fun p => decide (p.conversationId = conv.id ∧ p.userId = B)) = true := by
      rw [List.any_eq_true]
      exact ⟨⟨st.nextId, B, none⟩, by simp [hparts'], by simp [hconvdef]⟩
    have hfindc' : (st.conversations ++ [conv]).find?
        (fun x => decide (x.id = conv.id)) = some conv := by
      rw [List.find?_append]
      have hnone : st.conversations.find? (fun x => decide (x.id = conv.id)) = none := by
        rw [List.find?_eq_none]
        intro x hx
        simp only [decide_eq_true_eq, hconvdef]
        exact Nat.ne_of_lt (hwf.1 x hx)
      rw [hnone]
      simp
    have hg' : ∀ (u : Nat), parts'.any
          (fun p => decide (p.conversationId = conv.id ∧ p.userId = u)) = true →
        getConversationById conv.id u
          { st with
            conversations := st.conversations ++ [conv]
            participants := parts'
            nextId := st.nextId + 1 } = .ok conv := by
      intro u hany
      exact getConversationById_ok conv.id u _ conv hfindc' hany
    refine ⟨?_, ?_, hctx1, hctx2⟩
    · exact createConversation_existing A ⟨B, pid, ty'⟩ _ conv conv hAB
        (hfind' A B (Or.inl ⟨rfl, rfl⟩)) (hg' A hanyA')
    · exact createConversation_existing B ⟨A, pid, ty'⟩ _ conv conv (Ne.symm hAB)
        (hfind' B A (Or.inr ⟨rfl, rfl⟩)) (hg' B hanyB')

/-- Witness for C1: user 0 creates a conversation with user 1 in the empty
store; the second identical call returns the same id 0 and the same store. -/
theorem createConversation_get_or_create_idempotent_witness :
    createConversation 0 ⟨1, none, none⟩
      ⟨[⟨0, ConversationType.direct, none, 0⟩], [⟨0, 0, none⟩, ⟨0, 1, none⟩], [], 1, 0⟩ =
    .ok (0,
      ⟨[⟨0, ConversationType.direct, none, 0⟩], [⟨0, 0, none⟩, ⟨0, 1, none⟩], [], 1, 0⟩) :=
  (createConversation_get_or_create_idempotent 0 1 none none none
    ⟨[], [], [], 0, 0⟩
    ⟨[⟨0, ConversationType.direct, none, 0⟩], [⟨0, 0, none⟩, ⟨0, 1, none⟩], [], 1, 0⟩
    0 (by decide) (by decide) (by rfl)).1

/-! ## C2 -/

/-- Maximum of two statuses under the SENT < DELIVERED < READ order. -/
def statusMax (a b : MessageStatus) : MessageStatus :=
  if statusIdx b ≤ statusIdx a then a else b

/-- One updateMessageStatus call viewed as a state transformer (the state is
unchanged when the call errors). -/
def statusStep (messageId : Nat) (st : ChatState) (status : MessageStatus) : ChatState :=
  match updateMessageStatus messageId status st with
  | .ok (_, st') => st'
  | .error _ => st

/-- A finite sequence of updateMessageStatus calls. -/
def applyStatusSeq (messageId : Nat) (seq : List MessageStatus) (st : ChatState) :
    ChatState :=
  seq.foldl (statusStep messageId) st

theorem find?_replace (msgs : List Message) (mid : Nat) (m m' : Message)
    (h : msgs.find? (fun x => decide (x.id = mid)) = some m) (hm' : m'.id = mid) :
    (msgs.map (fun x => if x.id = mid then m' else x)).find?
      (fun x => decide (x.id = mid)) = some m' := by
  induction msgs with
  | nil => simp at h
  | cons a l ih =>
    simp only [List.map_cons]
    by_cases ha : a.id = mid
    · rw [if_pos ha]
      rw [List.find?_cons_of_pos _ (by simp [hm'])]
    · rw [if_neg ha]
      rw [List.find?_cons_of_neg _ (by simp [ha])]
      rw [List.find?_cons_of_neg _ (by simp [ha])] at h
      exact ih h

theorem updateMessageStatus_eq (mid : Nat) (s : MessageStatus) (st : ChatState)
    (m : Message) (h : st.messages.find? (fun x => decide (x.id = mid)) = some m) :
    updateMessageStatus mid s st =
      if statusIdx s ≤ statusIdx m.status then .ok (m, st)
      else .ok ({ m with status := s },
        { st with messages :=
            st.messages.map (fun x => if x.id = mid then { m with status := s } else x) }) := by
  unfold updateMessageStatus
  rw [h]

theorem statusStep_find (mid : Nat) (s : MessageStatus) (st : ChatState) (m : Message)
    (h : st.messages.find? (fun x => decide (x.id = mid)) = some m) :
    (statusStep mid st s).messages.find? (fun x => decide (x.id = mid)) =
      some { m with status := statusMax m.status s } := by
  have h1 := updateMessageStatus_eq mid s st m h
  by_cases hle : statusIdx s ≤ statusIdx m.status
  · have h2 : updateMessageStatus mid s st = .ok (m, st) := by rw [h1, if_pos hle]
    have h3 : statusMax m.status s = m.status := by unfold statusMax; rw [if_pos hle]
    rw [h3]
    simp only [statusStep, h2]
    exact h
  · have h2 : updateMessageStatus mid s st = .ok ({ m with status := s },
        { st with messages :=
            st.messages.map (fun x => if x.id = mid then { m with status := s } else x) }) := by
      rw [h1, if_neg hle]
    have h3 : statusMax m.status s = s := by unfold statusMax; rw [if_neg hle]
    rw [h3]
    simp only [statusStep, h2]
    exact find?_replace st.messages mid m { m with status := s } h
      (by have := List.find?_some h; simpa using this)

theorem applyStatusSeq_find (mid : Nat) (seq : List MessageStatus) :
    ∀ (st : ChatState) (m : Message),
    st.messages.find? (fun x => decide (x.id = mid)) = some m →
    (applyStatusSeq mid seq st).messages.find? (fun x => decide (x.id = mid)) =
      some { m with status := seq.foldl statusMax m.status } := by
  induction seq with
  | nil => intro st m h; exact h
  | cons s rest ih =>
    intro st m h
    have hstep := statusStep_find mid s st m h
    have hrw : applyStatusSeq mid (s :: rest) st =
        applyStatusSeq mid rest (statusStep mid st s) := rfl
    rw [hrw]
    exact ih (statusStep mid st s) _ hstep

/-- C2: for an existing message, any finite sequence of updateMessageStatus
calls leaves the stored status at the fold of `statusMax` over the targets
(the maximum status reached under SENT < DELIVERED < READ, `statusMax`
realizing `max` on `statusIdx`); a call whose target is at or before the
current status returns the message unchanged without error; a call on a
missing message id fails with NotFound. -/
theorem updateMessageStatus_monotone (mid : Nat) (seq : List MessageStatus)
    (st : ChatState) (m : Message)
    (h : st.messages.find? (fun x => decide (x.id = mid)) = some m) :
    ((applyStatusSeq mid seq st).messages.find? (fun x => decide (x.id = mid)) =
      some { m with status := seq.foldl statusMax m.status }) ∧
    (∀ a b : MessageStatus, statusIdx (statusMax a b) = max (statusIdx a) (statusIdx b)) ∧
    (∀ status : MessageStatus, statusIdx status ≤ statusIdx m.status →
      updateMessageStatus mid status st = .ok (m, st)) ∧
    (∀ (s' : ChatState) (status : MessageStatus),
      s'.messages.find? (fun x => decide (x.id = mid)) = none →
      updateMessageStatus mid status s' = .error .notFound) := by
  refine ⟨applyStatusSeq_find mid seq st m h, ?_, ?_, ?_⟩
  · intro a b; cases a <;> cases b <;> rfl
  · intro status hle
    rw [updateMessageStatus_eq mid status st m h, if_pos hle]
  · intro s' status hnone
    unfold updateMessageStatus
    rw [hnone]

/-- Witness for C2: message 0 stored as SENT, sequence [READ, DELIVERED]:
the stored status ends at READ (the maximum reached), never regressing. -/
theorem updateMessageStatus_monotone_witness :
    (applyStatusSeq 0 [MessageStatus.read, MessageStatus.delivered]
      ⟨[], [], [⟨0, 0, 0, "hi", MessageType.text, MessageStatus.sent, 0⟩], 1, 0⟩).messages.find?
        (fun x => decide (x.id = 0)) =
      some ⟨0, 0, 0, "hi", MessageType.text, MessageStatus.read, 0⟩ :=
  (updateMessageStatus_monotone 0 [MessageStatus.read, MessageStatus.delivered]
    ⟨[], [], [⟨0, 0, 0, "hi", MessageType.text, MessageStatus.sent, 0⟩], 1, 0⟩
    ⟨0, 0, 0, "hi", MessageType.text, MessageStatus.sent, 0⟩ (by rfl)).1

/-! ## C3 -/

theorem getConversationById_forbidden (cid uid : Nat) (st : ChatState) (c : Conversation)
    (hc : st.conversations.find? (fun x => decide (x.id = cid)) = some c)
    (hnp : ∀ p ∈ st.participants, ¬(p.conversationId = cid ∧ p.userId = uid)) :
    getConversationById cid uid st = .error .forbidden := by
  unfold getConversationById
  rw [hc]
  have hany : (st.participants.any
      (fun p => decide (p.conversationId = cid ∧ p.userId = uid))) = false := by
    by_contra hcon
    rw [Bool.not_eq_false, List.any_eq_true] at hcon
    obtain ⟨p, hp, hp2⟩ := hcon
    rw [decide_eq_true_eq] at hp2
    exact hnp p hp hp2
  rw [hany]
  rfl

theorem getConversationById_notFound (cid uid : Nat) (st : ChatState)
    (hnone : st.conversations.find? (fun x => decide (x.id = cid)) = none) :
    getConversationById cid uid st = .error .notFound := by
  unfold getConversationById
  rw [hnone]

/-- C3: a user who is not a participant of an existing conversation gets
Forbidden from getConversationById, getMessages, sendMessage and markAsRead
(all of which abort before touching any state), and each of the four
operations fails NotFound on a conversation id that does not exist. -/
theorem conversation_ops_authorization (cid uid page limit : Nat) (st : ChatState)
    (dto : SendMessageDto) :
    ((∃ c, st.conversations.find? (fun x => decide (x.id = cid)) = some c) →
      (∀ p ∈ st.participants, ¬(p.conversationId = cid ∧ p.userId = uid)) →
      getConversationById cid uid st = .error .forbidden ∧
      getMessages cid uid page limit st = .error .forbidden ∧
      sendMessage cid uid dto st = .error .forbidden ∧
      markAsRead cid uid st = .error .forbidden) ∧
    (st.conversations.find? (fun x => decide (x.id = cid)) = none →
      getConversationById cid uid st = .error .notFound ∧
      getMessages cid uid page limit st = .error .notFound ∧
      sendMessage cid uid dto st = .error .notFound ∧
      markAsRead cid uid st = .error .notFound) := by
  constructor
  · rintro ⟨c, hc⟩ hnp
    have hg := getConversationById_forbidden cid uid st c hc hnp
    refine ⟨hg, ?_, ?_, ?_⟩
    · unfold getMessages; simp only [hg]
    · unfold sendMessage; simp only [hg]
    · unfold markAsRead; simp only [hg]
  · intro hnone
    have hg := getConversationById_notFound cid uid st hnone
    refine ⟨hg, ?_, ?_, ?_⟩
    · unfold getMessages; simp only [hg]
    · unfold sendMessage; simp only [hg]
    · unfold markAsRead; simp only [hg]

/-- Witness for C3: conversation 0 has participants 0 and 1; user 2 gets
Forbidden everywhere, and conversation 5 does not exist so user 2 gets
NotFound everywhere. -/
theorem conversation_ops_authorization_witness :
    (getConversationById 0 2
        ⟨[⟨0, ConversationType.direct, none, 0⟩], [⟨0, 0, none⟩, ⟨0, 1, none⟩], [], 1, 0⟩ =
      .error .forbidden ∧
      getMessages 0 2 1 30
        ⟨[⟨0, ConversationType.direct, none, 0⟩], [⟨0, 0, none⟩, ⟨0, 1, none⟩], [], 1, 0⟩ =
      .error .forbidden ∧
      sendMessage 0 2 ⟨"x", none⟩
        ⟨[⟨0, ConversationType.direct, none, 0⟩], [⟨0, 0, none⟩, ⟨0, 1, none⟩], [], 1, 0⟩ =
      .error .forbidden ∧
      markAsRead 0 2
        ⟨[⟨0, ConversationType.direct, none, 0⟩], [⟨0, 0, none⟩, ⟨0, 1, none⟩], [], 1, 0⟩ =
      .error .forbidden) ∧
    (getConversationById 5 2
        ⟨[⟨0, ConversationType.direct, none, 0⟩], [⟨0, 0, none⟩, ⟨0, 1, none⟩], [], 1, 0⟩ =
      .error .notFound ∧
      getMessages 5 2 1 30
        ⟨[⟨0, ConversationType.direct, none, 0⟩], [⟨0, 0, none⟩, ⟨0, 1, none⟩], [], 1, 0⟩ =
      .error .notFound ∧
      sendMessage 5 2 ⟨"x", none⟩
        ⟨[⟨0, ConversationType.direct, none, 0⟩], [⟨0, 0, none⟩, ⟨0, 1, none⟩], [], 1, 0⟩ =
      .error .notFound ∧
      markAsRead 5 2
        ⟨[⟨0, ConversationType.direct, none, 0⟩], [⟨0, 0, none⟩, ⟨0, 1, none⟩], [], 1, 0⟩ =
      .error .notFound) :=
  ⟨(conversation_ops_authorization 0 2 1 30
      ⟨[⟨0, ConversationType.direct, none, 0⟩], [⟨0, 0, none⟩, ⟨0, 1, none⟩], [], 1, 0⟩
      ⟨"x", none⟩).1 ⟨⟨0, ConversationType.direct, none, 0⟩, by rfl⟩ (by decide),
   (conversation_ops_authorization 5 2 1 30
      ⟨[⟨0, ConversationType.direct, none, 0⟩], [⟨0, 0, none⟩, ⟨0, 1, none⟩], [], 1, 0⟩
      ⟨"x", none⟩).2 (by rfl)⟩

/-! ## C4 -/

/-- ChatGateway.handleMessageDelivered: updates the message to DELIVERED via
ChatService.updateMessageStatus and reports the stored status for the room
broadcast. The authenticated client's user id is received but never compared
against the conversation's participants. -/
def handleMessageDelivered (clientUserId messageId conversationId : Nat)
    (st : ChatState) : Except ChatError (MessageStatus × ChatState) :=
  match updateMessageStatus messageId MessageStatus.delivered st with
  | .error e => .error e
  | .ok (updated, st') => .ok (updated.status, st')

/-- Counterexample for C4: in a store whose only conversation 0 has
participants 0 and 1 and whose message 2 is SENT, user 7 — not a participant
of conversation 0, witnessed by the `.all` conjunct — issues
message:delivered and the stored status of message 2 changes to DELIVERED:
the delivery-status realtime path does not pass the participant gate. -/
theorem handleMessageDelivered_nonparticipant_counterexample :
    handleMessageDelivered 7 2 0
      ⟨[⟨0, ConversationType.direct, none, 0⟩], [⟨0, 0, none⟩, ⟨0, 1, none⟩],
       [⟨2, 0, 0, "hi", MessageType.text, MessageStatus.sent, 0⟩], 3, 0⟩ =
    .ok (MessageStatus.delivered,
      ⟨[⟨0, ConversationType.direct, none, 0⟩], [⟨0, 0, none⟩, ⟨0, 1, none⟩],
       [⟨2, 0, 0, "hi", MessageType.text, MessageStatus.delivered, 0⟩], 3, 0⟩) ∧
    (List.all [(⟨0, 0, none⟩ : Participant), ⟨0, 1, none⟩]
      (fun p => !(decide (p.conversationId = 0 ∧ p.userId = 7)))) = true := by
  exact ⟨by rfl, by decide⟩

/-- C4 amended: the message:delivered realtime path performs no participant
authorization at all — its result is independent of the calling user, and for
every user id (participant or not) delivering an existing SENT message
succeeds and sets its stored status to DELIVERED. -/
theorem handleMessageDelivered_no_auth_gate (u mid cid : Nat) (st : ChatState)
    (m : Message)
    (h : st.messages.find? (fun x => decide (x.id = mid)) = some m)
    (hs : m.status = .sent) :
    (∀ u' : Nat, handleMessageDelivered u' mid cid st = handleMessageDelivered u mid cid st) ∧
    handleMessageDelivered u mid cid st = .ok (MessageStatus.delivered,
      { st with messages :=
          st.messages.map (fun x => if x.id = mid then { m with status := MessageStatus.delivered } else x) }) ∧
    ({ st with messages :=
        st.messages.map (fun x => if x.id = mid then { m with status := MessageStatus.delivered } else x)
      } : ChatState).messages.find? (fun x => decide (x.id = mid)) =
      some { m with status := MessageStatus.delivered } := by
  have h1 := updateMessageStatus_eq mid MessageStatus.delivered st m h
  rw [hs] at h1
  rw [if_neg (by decide)] at h1
  refine ⟨fun u' => rfl, ?_, ?_⟩
  · unfold handleMessageDelivered
    simp only [h1]
  · exact find?_replace st.messages mid m { m with status := MessageStatus.delivered } h
      (by have := List.find?_some h; simpa using this)

/-- Witness for the amended C4: the non-participant user 7 succeeds. -/
theorem handleMessageDelivered_no_auth_gate_witness :
    handleMessageDelivered 7 2 0
      ⟨[⟨0, ConversationType.direct, none, 0⟩], [⟨0, 0, none⟩, ⟨0, 1, none⟩],
       [⟨2, 0, 0, "hi", MessageType.text, MessageStatus.sent, 0⟩], 3, 0⟩ =
    .ok (MessageStatus.delivered,
      ⟨[⟨0, ConversationType.direct, none, 0⟩], [⟨0, 0, none⟩, ⟨0, 1, none⟩],
       [⟨2, 0, 0, "hi", MessageType.text, MessageStatus.delivered, 0⟩], 3, 0⟩) :=
  (handleMessageDelivered_no_auth_gate 7 2 0
    ⟨[⟨0, ConversationType.direct, none, 0⟩], [⟨0, 0, none⟩, ⟨0, 1, none⟩],
     [⟨2, 0, 0, "hi", MessageType.text, MessageStatus.sent, 0⟩], 3, 0⟩
    ⟨2, 0, 0, "hi", MessageType.text, MessageStatus.sent, 0⟩ (by rfl) (by rfl)).2.1

/-! ## C10 -/

/-- Counterexample for C10: a payload with an explicit type PRODUCT_INQUIRY
and no productId creates a conversation whose type is PRODUCT_INQUIRY, not
DIRECT (the code uses `dto.type || DIRECT`, not unconditionally DIRECT). -/
theorem createConversation_type_counterexample :
    createConversation 0 ⟨1, none, some ConversationType.product_inquiry⟩
      ⟨[], [], [], 0, 0⟩ =
    .ok (0, ⟨[⟨0, ConversationType.product_inquiry, none, 0⟩],
      [⟨0, 0, none⟩, ⟨0, 1, none⟩], [], 1, 0⟩) := by
  rfl

/-- C10 amended: a createConversation request that passes the
self-conversation and dedup checks creates a conversation of type
PRODUCT_INQUIRY when productId is given; when productId is omitted the type
is the explicitly supplied one when present, and DIRECT otherwise. -/
theorem createConversation_created_type (userId : Nat) (dto : CreateConversationDto)
    (st : ChatState) (i : Nat) (st' : ChatState)
    (hwf : st.WF)
    (hne : userId ≠ dto.participantId)
    (hnone : findExistingDirectConversation userId dto.participantId dto.productId st = none)
    (h : createConversation userId dto st = .ok (i, st')) :
    ∃ c : Conversation,
      st'.conversations.find? (fun x => decide (x.id = i)) = some c ∧
      (∀ pid, dto.productId = some pid → c.type = ConversationType.product_inquiry) ∧
      (dto.productId = none → dto.type = none → c.type = ConversationType.direct) ∧
      (dto.productId = none → ∀ ty, dto.type = some ty → c.type = ty) := by
  have h1 : createConversation userId dto st =
      .ok (st.nextId,
        { st with
          conversations := st.conversations ++
            [{ id := st.nextId
               type := newConversationType dto.productId dto.type
               productId := dto.productId
               updatedAt := st.now }]
          participants := st.participants ++
            [⟨st.nextId, userId, none⟩, ⟨st.nextId, dto.participantId, none⟩]
          nextId := st.nextId + 1 }) := by
    unfold createConversation
    rw [if_neg hne, hnone]
  have heq := h1.symm.trans h
  simp only [Except.ok.injEq, Prod.mk.injEq] at heq
  obtain ⟨hic, hst⟩ := heq
  subst hic
  subst hst
  refine ⟨{ id := st.nextId
            type := newConversationType dto.productId dto.type
            productId := dto.productId
            updatedAt := st.now }, ?_, ?_, ?_, ?_⟩
  · show ((st.conversations ++ _).find? _) = _
    rw [List.find?_append]
    have hnonefc : st.conversations.find? (fun x => decide (x.id = st.nextId)) = none := by
      rw [List.find?_eq_none]
      intro x hx
      simp only [decide_eq_true_eq]
      exact Nat.ne_of_lt (hwf.1 x hx)
    rw [hnonefc]
    simp
  · intro pid hpid
    show newConversationType dto.productId dto.type = _
    rw [hpid]
    rfl
  · intro hpid hty
    show newConversationType dto.productId dto.type = _
    rw [hpid, hty]
    rfl
  · intro hpid ty hty
    show newConversationType dto.productId dto.type = _
    rw [hpid, hty]
    rfl

/-- Witness for the amended C10: an explicit PRODUCT_INQUIRY type with no
productId yields a PRODUCT_INQUIRY conversation. -/
theorem createConversation_created_type_witness :
    ∃ c : Conversation,
      (⟨[⟨0, ConversationType.product_inquiry, none, 0⟩],
        [⟨0, 0, none⟩, ⟨0, 1, none⟩], [], 1, 0⟩ : ChatState).conversations.find?
        (fun x => decide (x.id = 0)) = some c ∧
      (∀ pid, (none : Option Nat) = some pid → c.type = ConversationType.product_inquiry) ∧
      ((none : Option Nat) = none → (some ConversationType.product_inquiry : Option ConversationType) = none →
        c.type = ConversationType.direct) ∧
      ((none : Option Nat) = none → ∀ ty,
        (some ConversationType.product_inquiry : Option ConversationType) = some ty → c.type = ty) :=
  createConversation_created_type 0 ⟨1, none, some ConversationType.product_inquiry⟩
    ⟨[], [], [], 0, 0⟩ 0
    ⟨[⟨0, ConversationType.product_inquiry, none, 0⟩],
     [⟨0, 0, none⟩, ⟨0, 1, none⟩], [], 1, 0⟩
    (by decide) (by decide) (by rfl) (by rfl)

/-! ## C5 -/

theorem find?_markRead_participants (parts : List Participant) (cid uid t : Nat)
    (p : Participant)
    (hp : parts.find? (fun q => decide (q.conversationId = cid ∧ q.userId = uid)) = some p) :
    (parts.map (fun q =>
      if q.conversationId = cid ∧ q.userId = uid then { q with lastReadAt := some t } else q)).find?
      (fun q => decide (q.conversationId = cid ∧ q.userId = uid)) =
      some { p with lastReadAt := some t } := by
  induction parts with
  | nil => simp at hp
  | cons a l ih =>
    by_cases ha : a.conversationId = cid ∧ a.userId = uid
    · rw [List.find?_cons_of_pos _ (by simp [ha.1, ha.2])] at hp
      injection hp with hp
      subst hp
      simp only [List.map_cons, if_pos ha]
      rw [List.find?_cons_of_pos _ (by simp [ha.1, ha.2])]
    · rw [List.find?_cons_of_neg _ (by simp [ha])] at hp
      simp only [List.map_cons, if_neg ha]
      rw [List.find?_cons_of_neg _ (by simp [ha])]
      exact ih hp

/-- C5: for a participant whose lastReadAt is null, getUnreadCount returns
the number of messages in the conversation from other senders; markAsRead
then succeeds, sets that participant's lastReadAt to the current time, sets
every message from another sender that is not already READ to READ, and
getUnreadCount returns 0 immediately afterwards (all stored messages having
been created no later than now). -/
theorem markAsRead_unread_accounting (cid uid : Nat) (st : ChatState)
    (p : Participant) (c : Conversation)
    (hc : st.conversations.find? (fun x => decide (x.id = cid)) = some c)
    (hp : st.participants.find?
      (fun q => decide (q.conversationId = cid ∧ q.userId = uid)) = some p)
    (hpl : p.lastReadAt = none)
    (htime : ∀ m ∈ st.messages, m.conversationId = cid → m.createdAt ≤ st.now)
    (hN : 1 ≤ (st.messages.filter (fun m =>
      decide (m.conversationId = cid) && decide (m.senderId ≠ uid))).length) :
    getUnreadCount cid uid st = (st.messages.filter (fun m =>
      decide (m.conversationId = cid) && decide (m.senderId ≠ uid))).length ∧
    ∃ st', markAsRead cid uid st = .ok st' ∧
      getUnreadCount cid uid st' = 0 ∧
      st'.participants.find?
        (fun q => decide (q.conversationId = cid ∧ q.userId = uid)) =
        some { p with lastReadAt := some st.now } ∧
      (∀ m' ∈ st'.messages, m'.conversationId = cid → m'.senderId ≠ uid →
        m'.status = MessageStatus.read) := by
  have hpmem : p ∈ st.participants := List.mem_of_find?_eq_some hp
  have hppred := List.find?_some hp
  rw [decide_eq_true_eq] at hppred
  have hany : (st.participants.any
      (fun q => decide (q.conversationId = cid ∧ q.userId = uid))) = true := by
    rw [List.any_eq_true]
    exact ⟨p, hpmem, by simp [hppred.1, hppred.2]⟩
  have hgc : getConversationById cid uid st = .ok c :=
    getConversationById_ok cid uid st c hc hany
  have hbefore : getUnreadCount cid uid st = (st.messages.filter (fun m =>
      decide (m.conversationId = cid) && decide (m.senderId ≠ uid))).length := by
    unfold getUnreadCount
    rw [hp]
    simp only [hpl]
    congr 1
    apply List.filter_congr
    intro m _
    rw [Bool.and_true]
  refine ⟨hbefore, ?_⟩
  have hm : markAsRead cid uid st = .ok
      { st with
        participants := st.participants.map (fun q =>
          if q.conversationId = cid ∧ q.userId = uid
          then { q with lastReadAt := some st.now } else q)
        messages := st.messages.map (fun m =>
          if m.conversationId = cid ∧ m.senderId ≠ uid ∧ m.status ≠ MessageStatus.read
          then { m with status := MessageStatus.read } else m) } := by
    unfold markAsRead
    simp only [hgc]
  refine ⟨_, hm, ?_, ?_, ?_⟩
  · unfold getUnreadCount
    rw [find?_markRead_participants st.participants cid uid st.now p hp]
    simp only []
    rw [List.length_eq_zero]
    rw [List.filter_eq_nil_iff]
    intro m' hm'
    rw [List.mem_map] at hm'
    obtain ⟨m, hmmem, hmap⟩ := hm'
    intro hpred
    have hfields : m'.conversationId = m.conversationId ∧ m'.createdAt = m.createdAt := by
      by_cases hcond : m.conversationId = cid ∧ m.senderId ≠ uid ∧ m.status ≠ MessageStatus.read
      · rw [if_pos hcond] at hmap; rw [← hmap]; exact ⟨rfl, rfl⟩
      · rw [if_neg hcond] at hmap; rw [← hmap]; exact ⟨rfl, rfl⟩
    simp only [Bool.and_eq_true, decide_eq_true_eq] at hpred
    have hcid2 : m.conversationId = cid := by rw [← hfields.1]; tauto
    have hlt : st.now < m.createdAt := by rw [← hfields.2]; tauto
    have hle := htime m hmmem hcid2
    omega
  · exact find?_markRead_participants st.participants cid uid st.now p hp
  · intro m' hm' hcid hsnd
    rw [List.mem_map] at hm'
    obtain ⟨m, hmmem, hmap⟩ := hm'
    by_cases hcond : m.conversationId = cid ∧ m.senderId ≠ uid ∧ m.status ≠ MessageStatus.read
    · rw [if_pos hcond] at hmap
      rw [← hmap]
    · rw [if_neg hcond] at hmap
      subst hmap
      by_cases hread : m.status = MessageStatus.read
      · exact hread
      · exact absurd ⟨hcid, hsnd, hread⟩ hcond

/-- Witness for C5: conversation 0 between users 0 and 1 with one SENT
message from user 1 at time 5, clock at 10: user 0's unread count is 1
before markAsRead and 0 after, lastReadAt becomes 10 and the message READ. -/
theorem markAsRead_unread_accounting_witness :
    getUnreadCount 0 0
      ⟨[⟨0, ConversationType.direct, none, 0⟩], [⟨0, 0, none⟩, ⟨0, 1, none⟩],
       [⟨1, 0, 1, "hello", MessageType.text, MessageStatus.sent, 5⟩], 2, 10⟩ = 1 ∧
    ∃ st', markAsRead 0 0
      ⟨[⟨0, ConversationType.direct, none, 0⟩], [⟨0, 0, none⟩, ⟨0, 1, none⟩],
       [⟨1, 0, 1, "hello", MessageType.text, MessageStatus.sent, 5⟩], 2, 10⟩ = .ok st' ∧
      getUnreadCount 0 0 st' = 0 ∧
      st'.participants.find?
        (fun q => decide (q.conversationId = 0 ∧ q.userId = 0)) = some ⟨0, 0, some 10⟩ ∧
      (∀ m' ∈ st'.messages, m'.conversationId = 0 → m'.senderId ≠ 0 →
        m'.status = MessageStatus.read) :=
  markAsRead_unread_accounting 0 0
    ⟨[⟨0, ConversationType.direct, none, 0⟩], [⟨0, 0, none⟩, ⟨0, 1, none⟩],
     [⟨1, 0, 1, "hello", MessageType.text, MessageStatus.sent, 5⟩], 2, 10⟩
    ⟨0, 0, none⟩ ⟨0, ConversationType.direct, none, 0⟩
    (by rfl) (by rfl) (by rfl) (by decide) (by decide)

/-! ## C6 -/

/-- A socket currently joined to the conversation room, tagged with the user
it authenticated as. -/
structure SocketInfo where
  sockId : Nat
  userId : Nat
deriving DecidableEq, Repr

/-- An event emitted by the gateway while handling message:send. -/
inductive SendEmit
  | messageNew (sockId : Nat)
  | notification (userId : Nat)
deriving DecidableEq, Repr

/-- ChatGateway.handleSendMessage fan-out: message:new is broadcast to every
socket in the conversation room, then each participant other than the sender
whose user id has no socket in the room gets one message:notification on
their personal channel (`userIdsInRoom` is the set of user ids of the
sockets fetched from the room). -/
def sendMessageEmits (participants : List Nat) (senderId : Nat)
    (room : List SocketInfo) : List SendEmit :=
  let userIdsInRoom := room.map (fun s => s.userId)
  room.map (fun s => SendEmit.messageNew s.sockId) ++
    (participants.filter (fun u =>
      !(decide (u = senderId)) && !(userIdsInRoom.contains u))).map SendEmit.notification

theorem sendMessageEmits_notifCount (participants : List Nat) (senderId : Nat)
    (room : List SocketInfo) (u : Nat) :
    (sendMessageEmits participants senderId room).countP
        (fun e => decide (e = SendEmit.notification u)) =
      participants.countP (fun x => decide (x = u) &&
        (!(decide (x = senderId)) && !((room.map (fun s => s.userId)).contains x))) := by
  unfold sendMessageEmits
  simp only [List.countP_append]
  have h1 : (room.map (fun s => SendEmit.messageNew s.sockId)).countP
      (fun e => decide (e = SendEmit.notification u)) = 0 := by
    rw [List.countP_eq_zero]
    intro e he
    rw [List.mem_map] at he
    obtain ⟨s, _, rfl⟩ := he
    simp
  rw [h1, Nat.zero_add, List.countP_map, List.countP_filter]
  apply List.countP_congr
  intro x _
  simp only [Function.comp_apply, Bool.and_eq_true, decide_eq_true_eq,
    SendEmit.notification.injEq]

/-- C6: when a message is sent in a conversation, every socket in the
conversation room receives message:new from the room broadcast; a
participant (appearing once in the participant list) who is not the sender
and has no open socket in the room receives exactly one
message:notification; a participant with an open socket in the room receives
no message:notification at all — no double delivery. -/
theorem sendMessage_no_double_delivery (participants : List Nat) (senderId : Nat)
    (room : List SocketInfo) (u : Nat) :
    (∀ s ∈ room, SendEmit.messageNew s.sockId ∈ sendMessageEmits participants senderId room) ∧
    (participants.countP (fun x => decide (x = u)) = 1 → u ≠ senderId →
      (∀ s ∈ room, s.userId ≠ u) →
      (sendMessageEmits participants senderId room).countP
        (fun e => decide (e = SendEmit.notification u)) = 1) ∧
    ((∃ s ∈ room, s.userId = u) →
      (sendMessageEmits participants senderId room).countP
        (fun e => decide (e = SendEmit.notification u)) = 0) := by
  refine ⟨?_, ?_, ?_⟩
  · intro s hs
    simp only [sendMessageEmits, List.mem_append, List.mem_map]
    exact Or.inl ⟨s, hs, rfl⟩
  · intro hcount hsender hroom
    have hcontains : ((room.map (fun s => s.userId)).contains u) = false := by
      by_contra hcon
      rw [Bool.not_eq_false, List.contains_iff_exists_mem_beq] at hcon
      obtain ⟨a, ha, hbeq⟩ := hcon
      rw [List.mem_map] at ha
      obtain ⟨s, hs, rfl⟩ := ha
      have hu : u = s.userId := by simpa using hbeq
      exact hroom s hs hu.symm
    rw [sendMessageEmits_notifCount, ← hcount]
    apply List.countP_congr
    intro x _
    by_cases hxu : x = u
    · subst hxu
      rw [hcontains]
      have h1 : decide (x = senderId) = false := by
        simp only [decide_eq_false_iff_not]
        exact hsender
      rw [h1]
      simp
    · simp [hxu]
  · rintro ⟨s, hs, hsu⟩
    have hcontains : ((room.map (fun t => t.userId)).contains u) = true := by
      rw [List.contains_iff_exists_mem_beq]
      refine ⟨u, ?_, by simp⟩
      rw [List.mem_map]
      exact ⟨s, hs, hsu⟩
    rw [sendMessageEmits_notifCount]
    rw [List.countP_eq_zero]
    intro x _
    by_cases hxu : x = u
    · subst hxu
      intro hpred
      rw [hcontains] at hpred
      simp at hpred
    · simp [hxu]

/-- Witness for C6: conversation participants 0 and 1, sender 0 whose
socket 100 is in the room: user 1 (no socket in the room) gets exactly one
message:notification, user 0 (in the room) gets none. -/
theorem sendMessage_no_double_delivery_witness :
    (sendMessageEmits [0, 1] 0 [⟨100, 0⟩]).countP
      (fun e => decide (e = SendEmit.notification 1)) = 1 ∧
    (sendMessageEmits [0, 1] 0 [⟨100, 0⟩]).countP
      (fun e => decide (e = SendEmit.notification 0)) = 0 :=
  ⟨(sendMessage_no_double_delivery [0, 1] 0 [⟨100, 0⟩] 1).2.1
      (by decide) (by decide) (by decide),
   (sendMessage_no_double_delivery [0, 1] 0 [⟨100, 0⟩] 0).2.2
      ⟨⟨100, 0⟩, by decide, rfl⟩⟩

/-! ## C7 -/

/-- ChatGateway.TYPING_TIMEOUT_MS. -/
def TYPING_TIMEOUT_MS : Nat := 5000

/-- A pending typing auto-expiry timer: key (conversationId, userId) plus the
absolute time at which its setTimeout callback fires. -/
structure TimerEntry where
  conv : Nat
  user : Nat
  deadline : Nat
deriving DecidableEq, Repr

/-- A typing:stop emission to a conversation room: (conversation, user, time). -/
abbrev StopEmit := Nat × Nat × Nat

/-- Client events handled by the gateway, each carrying its arrival time
(the single-threaded event loop processes them in order). -/
inductive GwEvent
  | typingStart (conv user time : Nat)
  | typingStop (conv user time : Nat)
  | sendMsg (conv user time : Nat)
  | leave (conv user time : Nat)
  | disconnect (user time : Nat)
deriving DecidableEq, Repr

def GwEvent.time : GwEvent → Nat
  | .typingStart _ _ t => t
  | .typingStop _ _ t => t
  | .sendMsg _ _ t => t
  | .leave _ _ t => t
  | .disconnect _ t => t

/-- setTimeout callbacks due at or before the clock t fire before the next
event is handled; each emits typing:stop at its deadline and removes itself
from the timer map. -/
def fireExpired (t : Nat) (timers : List TimerEntry) :
    List TimerEntry × List StopEmit :=
  (timers.filter (fun tm => decide (t < tm.deadline)),
   (timers.filter (fun tm => decide (tm.deadline ≤ t))).map
     (fun tm => (tm.conv, tm.user, tm.deadline)))

/-- ChatGateway.clearTypingTimer: cancel the (conversationId, userId) timer. -/
def clearTypingTimer (conv user : Nat) (timers : List TimerEntry) : List TimerEntry :=
  timers.filter (fun tm => !(decide (tm.conv = conv ∧ tm.user = user)))

/-- The gateway handlers' effect on the typing-timer map and the typing:stop
emissions: typing:start clears any pending timer and schedules a new one at
now + TYPING_TIMEOUT_MS; typing:stop and a message send clear the timer and
broadcast typing:stop; conversation:leave only clears it;
disconnect (ChatGateway.clearAllTypingTimersForUser) clears every timer of
the user, broadcasting typing:stop to each affected conversation. -/
def handleEvent (e : GwEvent) (timers : List TimerEntry) :
    List TimerEntry × List StopEmit :=
  match e with
  | .typingStart c u t =>
      (clearTypingTimer c u timers ++ [⟨c, u, t + TYPING_TIMEOUT_MS⟩], [])
  | .typingStop c u t => (clearTypingTimer c u timers, [(c, u, t)])
  | .sendMsg c u t => (clearTypingTimer c u timers, [(c, u, t)])
  | .leave c u _ => (clearTypingTimer c u timers, [])
  | .disconnect u t =>
      (timers.filter (fun tm => !(decide (tm.user = u))),
       (timers.filter (fun tm => decide (tm.user = u))).map (fun tm => (tm.conv, u, t)))

/-- Process one event: fire the timers that expired before its arrival, then
run its handler; emissions accumulate. -/
def gwStep (acc : List TimerEntry × List StopEmit) (e : GwEvent) :
    List TimerEntry × List StopEmit :=
  let fired := fireExpired e.time acc.1
  let handled := handleEvent e fired.1
  (handled.1, acc.2 ++ fired.2 ++ handled.2)

/-- Run a trace of events from an initial timer map. -/
def gwRun (timers : List TimerEntry) (trace : List GwEvent) :
    List TimerEntry × List StopEmit :=
  trace.foldl gwStep (timers, [])

/-- After the last event, let the clock reach T: the remaining expired
timers fire. Returns all typing:stop emissions observed up to T. -/
def gwFlush (T : Nat) (acc : List TimerEntry × List StopEmit) : List StopEmit :=
  acc.2 ++ (fireExpired T acc.1).2

/-- The events that cancel or reset the (c, u) typing timer. -/
def cancelsTimer (c u : Nat) : GwEvent → Prop
  | .typingStart c' u' _ => c' = c ∧ u' = u
  | .typingStop c' u' _ => c' = c ∧ u' = u
  | .sendMsg c' u' _ => c' = c ∧ u' = u
  | .leave c' u' _ => c' = c ∧ u' = u
  | .disconnect u' _ => u' = u

/-- Invariant carried through non-cancelling events: the stop for (c, u) at
time d has either already been emitted or its timer is still pending. -/
def typingInv (c u d : Nat) (acc : List TimerEntry × List StopEmit) : Prop :=
  (c, u, d) ∈ acc.2 ∨ (⟨c, u, d⟩ : TimerEntry) ∈ acc.1

theorem fireExpired_split (t : Nat) (timers : List TimerEntry) (tm : TimerEntry)
    (h : tm ∈ timers) :
    tm ∈ (fireExpired t timers).1 ∨
    (tm.conv, tm.user, tm.deadline) ∈ (fireExpired t timers).2 := by
  by_cases hd : t < tm.deadline
  · left
    rw [fireExpired, List.mem_filter]
    exact ⟨h, by simpa using hd⟩
  · right
    rw [fireExpired]
    rw [List.mem_map]
    exact ⟨tm, by rw [List.mem_filter]; exact ⟨h, by simp; omega⟩, rfl⟩

theorem typingInv_step (c u d : Nat) (e : GwEvent) (hne : ¬ cancelsTimer c u e)
    (acc : List TimerEntry × List StopEmit) (h : typingInv c u d acc) :
    typingInv c u d (gwStep acc e) := by
  obtain ⟨timers, emits⟩ := acc
  unfold typingInv gwStep at *
  rcases h with hin | htm
  · left
    simp only [List.mem_append]
    exact Or.inl (Or.inl hin)
  · rcases fireExpired_split e.time timers ⟨c, u, d⟩ htm with hkept | hfired
    · right
      cases e with
      | typingStart c' u' t' =>
        simp only [handleEvent, List.mem_append]
        left
        rw [clearTypingTimer, List.mem_filter]
        refine ⟨hkept, ?_⟩
        simp only [Bool.not_eq_eq_eq_not, Bool.not_true, decide_eq_false_iff_not]
        simp only [cancelsTimer] at hne
        omega
      | typingStop c' u' t' =>
        simp only [handleEvent]
        rw [clearTypingTimer, List.mem_filter]
        refine ⟨hkept, ?_⟩
        simp only [Bool.not_eq_eq_eq_not, Bool.not_true, decide_eq_false_iff_not]
        simp only [cancelsTimer] at hne
        omega
      | sendMsg c' u' t' =>
        simp only [handleEvent]
        rw [clearTypingTimer, List.mem_filter]
        refine ⟨hkept, ?_⟩
        simp only [Bool.not_eq_eq_eq_not, Bool.not_true, decide_eq_false_iff_not]
        simp only [cancelsTimer] at hne
        omega
      | leave c' u' t' =>
        simp only [handleEvent]
        rw [clearTypingTimer, List.mem_filter]
        refine ⟨hkept, ?_⟩
        simp only [Bool.not_eq_eq_eq_not, Bool.not_true, decide_eq_false_iff_not]
        simp only [cancelsTimer] at hne
        omega
      | disconnect u' t' =>
        simp only [handleEvent]
        rw [List.mem_filter]
        refine ⟨hkept, ?_⟩
        simp only [Bool.not_eq_eq_eq_not, Bool.not_true, decide_eq_false_iff_not]
        simp only [cancelsTimer] at hne
        omega
    · left
      simp only [List.mem_append]
      exact Or.inl (Or.inr hfired)

theorem typingInv_foldl (c u d : Nat) (post : List GwEvent)
    (hpost : ∀ e ∈ post, ¬ cancelsTimer c u e) :
    ∀ acc, typingInv c u d acc → typingInv c u d (post.foldl gwStep acc) := by
  induction post with
  | nil => intro acc h; exact h
  | cons e rest ih =>
    intro acc h
    rw [List.foldl_cons]
    exact ih (fun e' he' => hpost e' (List.mem_cons_of_mem e he'))
      (gwStep acc e)
      (typingInv_step c u d e (hpost e (List.mem_cons_self e rest)) acc h)

theorem typingInv_flush (c u d T : Nat) (hdT : d ≤ T)
    (acc : List TimerEntry × List StopEmit) (h : typingInv c u d acc) :
    (c, u, d) ∈ gwFlush T acc := by
  unfold gwFlush
  rw [List.mem_append]
  rcases h with hin | htm
  · exact Or.inl hin
  · right
    rw [fireExpired, List.mem_map]
    exact ⟨⟨c, u, d⟩, by rw [List.mem_filter]; exact ⟨htm, by simpa using hdT⟩, rfl⟩

/-- C7: a typing:start at time t whose (C, U) timer is not cancelled or reset
by any later event in the trace yields a typing:stop emission for (C, U) no
later than t + TYPING_TIMEOUT_MS once the clock reaches the deadline;
each of typing:stop, a message send, a room leave and a disconnect removes
the pending (C, U) timer; and a disconnect emits typing:stop for every
conversation the user still had a pending timer in. -/
theorem typing_indicator_auto_expiry (pre post : List GwEvent)
    (c u t T : Nat) (init : List TimerEntry)
    (hpost : ∀ e ∈ post, ¬ cancelsTimer c u e)
    (hT : t + TYPING_TIMEOUT_MS ≤ T) :
    (∃ tstop, tstop ≤ t + TYPING_TIMEOUT_MS ∧
      (c, u, tstop) ∈
        gwFlush T (gwRun init (pre ++ GwEvent.typingStart c u t :: post))) ∧
    (∀ (timers : List TimerEntry) (t' : Nat),
      (∀ tm ∈ (handleEvent (GwEvent.typingStop c u t') timers).1,
        ¬(tm.conv = c ∧ tm.user = u)) ∧
      (∀ tm ∈ (handleEvent (GwEvent.sendMsg c u t') timers).1,
        ¬(tm.conv = c ∧ tm.user = u)) ∧
      (∀ tm ∈ (handleEvent (GwEvent.leave c u t') timers).1,
        ¬(tm.conv = c ∧ tm.user = u)) ∧
      (∀ tm ∈ (handleEvent (GwEvent.disconnect u t') timers).1, tm.user ≠ u)) ∧
    (∀ (timers : List TimerEntry) (t' : Nat) (tm : TimerEntry),
      tm ∈ timers → tm.user = u →
      (tm.conv, u, t') ∈ (handleEvent (GwEvent.disconnect u t') timers).2) := by
  refine ⟨?_, ?_, ?_⟩
  · refine ⟨t + TYPING_TIMEOUT_MS, Nat.le.refl, ?_⟩
    have hrun : gwRun init (pre ++ GwEvent.typingStart c u t :: post) =
        post.foldl gwStep (gwStep (gwRun init pre) (GwEvent.typingStart c u t)) := by
      unfold gwRun
      rw [List.foldl_append, List.foldl_cons]
    rw [hrun]
    apply typingInv_flush c u (t + TYPING_TIMEOUT_MS) T hT
    apply typingInv_foldl c u (t + TYPING_TIMEOUT_MS) post hpost
    unfold typingInv gwStep
    right
    simp only [handleEvent, List.mem_append]
    right
    exact List.mem_singleton.mpr rfl
  · intro timers t'
    refine ⟨?_, ?_, ?_, ?_⟩ <;> intro tm htm
    · simp only [handleEvent, clearTypingTimer, List.mem_filter] at htm
      have h2 := htm.2
      simp only [Bool.not_eq_eq_eq_not, Bool.not_true, decide_eq_false_iff_not] at h2
      exact h2
    · simp only [handleEvent, clearTypingTimer, List.mem_filter] at htm
      have h2 := htm.2
      simp only [Bool.not_eq_eq_eq_not, Bool.not_true, decide_eq_false_iff_not] at h2
      exact h2
    · simp only [handleEvent, clearTypingTimer, List.mem_filter] at htm
      have h2 := htm.2
      simp only [Bool.not_eq_eq_eq_not, Bool.not_true, decide_eq_false_iff_not] at h2
      exact h2
    · simp only [handleEvent, List.mem_filter] at htm
      simpa using htm.2
  · intro timers t' tm htm hu
    simp only [handleEvent, List.mem_map]
    exact ⟨tm, by rw [List.mem_filter]; exact ⟨htm, by simpa using hu⟩, rfl⟩

/-- Witness for C7: a typing:start in conversation 3 by user 9 at time 0 with
no further events: the auto-stop for (3, 9) is emitted at time 5000 once the
clock reaches 5000. -/
theorem typing_indicator_auto_expiry_witness :
    ∃ tstop, tstop ≤ 0 + TYPING_TIMEOUT_MS ∧
      (3, 9, tstop) ∈ gwFlush 5000 (gwRun [] ([] ++ GwEvent.typingStart 3 9 0 :: [])) :=
  (typing_indicator_auto_expiry [] [] 3 9 0 5000 []
    (by intro e he; simp at he) (by decide)).1

/-! ## C8 and C9 -/

/-- The gateway's in-memory presence registry (ChatGateway.onlineUsers,
`Map<string, Set<string>>`): userId paired with its open socket ids. -/
abbrev OnlineMap := List (Nat × List Nat)

/-- `onlineUsers.has(userId)` — how user:check-online decides "online". -/
def isOnline (u : Nat) (m : OnlineMap) : Bool :=
  m.any (fun e => decide (e.1 = u))

/-- ChatGateway.handleCheckOnline: each queried id with its online flag. -/
def handleCheckOnline (userIds : List Nat) (m : OnlineMap) : List (Nat × Bool) :=
  userIds.map (fun id => (id, isOnline id m))

/-- Presence events broadcast by the connection lifecycle handlers. -/
inductive PresenceEmit
  | userOnline (u : Nat)
  | userOffline (u : Nat)
deriving DecidableEq, Repr

/-- ChatGateway.handleConnection (authenticated path): create the user's
socket set if absent, add the socket id, and broadcast user:online —
unconditionally, whether or not the user already had an open connection. -/
def handleConnection (u s : Nat) (m : OnlineMap) : OnlineMap × List PresenceEmit :=
  let m' :=
    if m.any (fun e => decide (e.1 = u))
    then m.map (fun e => if e.1 = u then (e.1, e.2 ++ [s]) else e)
    else m ++ [(u, [s])]
  (m', [.userOnline u])

/-- ChatGateway.handleDisconnect: remove the socket id from the user's set;
when the set becomes empty, delete the user from the registry and broadcast
user:offline (carrying the last-seen timestamp). -/
def handleDisconnect (u s : Nat) (m : OnlineMap) : OnlineMap × List PresenceEmit :=
  match m.find? (fun e => decide (e.1 = u)) with
  | none => (m, [])
  | some entry =>
    let conns := entry.2.erase s
    if conns.isEmpty
    then (m.filter (fun e => !(decide (e.1 = u))), [.userOffline u])
    else (m.map (fun e => if e.1 = u then (e.1, conns) else e), [])

/-- A connection lifecycle trace event. -/
inductive ConnEvent
  | connect (u s : Nat)
  | disconnect (u s : Nat)
deriving DecidableEq, Repr

def presenceStep (acc : OnlineMap × List PresenceEmit) (e : ConnEvent) :
    OnlineMap × List PresenceEmit :=
  match e with
  | .connect u s =>
    ((handleConnection u s acc.1).1, acc.2 ++ (handleConnection u s acc.1).2)
  | .disconnect u s =>
    ((handleDisconnect u s acc.1).1, acc.2 ++ (handleDisconnect u s acc.1).2)

/-- Run a connection trace from the empty registry. -/
def runPresence (trace : List ConnEvent) : OnlineMap × List PresenceEmit :=
  trace.foldl presenceStep ([], [])

/-- Registry evolution alone (the emission log does not influence it). -/
def presenceMapStep (m : OnlineMap) (e : ConnEvent) : OnlineMap :=
  match e with
  | .connect u s => (handleConnection u s m).1
  | .disconnect u s => (handleDisconnect u s m).1

/-- Ghost state: the open connections of each user, by the same
append/erase discipline the trace dictates. -/
def gStep (g : Nat → List Nat) (e : ConnEvent) : Nat → List Nat :=
  match e with
  | .connect u s => fun v => if u = v then g v ++ [s] else g v
  | .disconnect u s => fun v => if u = v then (g v).erase s else g v

/-- The open connections of each user after a trace. -/
def openConns (trace : List ConnEvent) : Nat → List Nat :=
  trace.foldl gStep (fun _ => [])

/-- The registry agrees with the ghost open-connection sets: a user is a key
exactly when they have open connections, and then the stored set is exactly
their open connections. -/
def SyncMap (m : OnlineMap) (g : Nat → List Nat) : Prop :=
  ∀ u, (m.find? (fun e => decide (e.1 = u))).map (fun e => e.2) =
    if g u = [] then none else some (g u)

theorem any_eq_find?_isSome (p : α → Bool) (l : List α) :
    l.any p = (l.find? p).isSome := by
  induction l with
  | nil => rfl
  | cons a t ih =>
    by_cases ha : p a = true
    · rw [List.any_cons, ha, List.find?_cons_of_pos _ ha]
      rfl
    · rw [List.any_cons, List.find?_cons_of_neg _ ha, ← ih]
      rw [Bool.not_eq_true] at ha
      rw [ha, Bool.false_or]

theorem find?_map_fst_preserving (l : OnlineMap) (f : Nat × List Nat → Nat × List Nat)
    (hf : ∀ e, (f e).1 = e.1) (u : Nat) :
    (l.map f).find? (fun e => decide (e.1 = u)) =
      (l.find? (fun e => decide (e.1 = u))).map f := by
  rw [List.find?_map]
  have hpf : ((fun (e : Nat × List Nat) => decide (e.1 = u)) ∘ f) =
      (fun (e : Nat × List Nat) => decide (e.1 = u)) := by
    funext e
    simp [Function.comp_apply, hf e]
  rw [hpf]

theorem foldl_presenceStep_fst (trace : List ConnEvent) :
    ∀ acc : OnlineMap × List PresenceEmit,
    (trace.foldl presenceStep acc).1 = trace.foldl presenceMapStep acc.1 := by
  induction trace with
  | nil => intro acc; rfl
  | cons e r ih =>
    intro acc
    rw [List.foldl_cons, List.foldl_cons, ih]
    cases e <;> rfl

theorem find?_filter_of_preserve (l : OnlineMap) (u u' : Nat) (hu : u ≠ u') :
    (l.filter (fun en => !(decide (en.1 = u)))).find? (fun en => decide (en.1 = u')) =
      l.find? (fun en => decide (en.1 = u')) := by
  induction l with
  | nil => rfl
  | cons a t ih =>
    by_cases ha : a.1 = u'
    · have hne : ¬(a.1 = u) := by rw [ha]; exact fun h => hu h.symm
      rw [List.filter_cons_of_pos (by simpa using hne)]
      rw [List.find?_cons_of_pos _ (by simpa using ha),
        List.find?_cons_of_pos _ (by simpa using ha)]
    · by_cases hau : a.1 = u
      · rw [List.filter_cons_of_neg (by simpa using hau)]
        rw [ih, List.find?_cons_of_neg _ (by simpa using ha)]
      · rw [List.filter_cons_of_pos (by simpa using hau)]
        rw [List.find?_cons_of_neg _ (by simpa using ha)]
        rw [List.find?_cons_of_neg _ (by simpa using ha)]
        exact ih

theorem syncMap_step (m : OnlineMap) (g : Nat → List Nat) (hs : SyncMap m g)
    (e : ConnEvent) : SyncMap (presenceMapStep m e) (gStep g e) := by
  cases e with
  | connect u s =>
    intro u'
    have hfst : ∀ (en : Nat × List Nat),
        ((fun en : Nat × List Nat =>
          if en.1 = u then (en.1, en.2 ++ [s]) else en) en).1 = en.1 := by
      intro en
      by_cases h : en.1 = u <;> simp [h]
    have hstep : presenceMapStep m (.connect u s) =
        (if (m.any fun en => decide (en.1 = u)) = true
         then m.map (fun en => if en.1 = u then (en.1, en.2 ++ [s]) else en)
         else m ++ [(u, [s])]) := rfl
    by_cases hon : (m.any fun en => decide (en.1 = u)) = true
    · rw [hstep, if_pos hon, find?_map_fst_preserving m _ hfst u']
      by_cases hu : u = u'
      · subst hu
        have hiso := any_eq_find?_isSome (fun en : Nat × List Nat => decide (en.1 = u)) m
        rw [hon] at hiso
        cases hfc : m.find? (fun en => decide (en.1 = u)) with
        | none => rw [hfc] at hiso; simp at hiso
        | some e0 =>
          have hkey : e0.1 = u := by simpa using List.find?_some hfc
          have hsu := hs u
          rw [hfc] at hsu
          by_cases hg : g u = []
          · rw [if_pos hg] at hsu; simp at hsu
          · rw [if_neg hg] at hsu
            simp only [Option.map_some', Option.some.injEq] at hsu
            have hgs : (gStep g (ConnEvent.connect u s)) u = g u ++ [s] := by
              simp [gStep]
            rw [hgs, if_neg (by simp)]
            simp only [Option.map_some', Option.some.injEq]
            rw [if_pos hkey]
            simp [hsu]
      · have hgs : (gStep g (ConnEvent.connect u s)) u' = g u' := by
          simp [gStep, hu]
        rw [hgs]
        cases hfc : m.find? (fun en => decide (en.1 = u')) with
        | none =>
          have hsu := hs u'
          rw [hfc] at hsu
          simpa using hsu
        | some e0 =>
          have hkey : e0.1 = u' := by simpa using List.find?_some hfc
          have hne : ¬(e0.1 = u) := by rw [hkey]; exact fun h => hu h.symm
          have hsu := hs u'
          rw [hfc] at hsu
          simp only [Option.map_some'] at hsu ⊢
          rw [if_neg hne]
          exact hsu
    · rw [hstep, if_neg hon, List.find?_append]
      by_cases hu : u = u'
      · subst hu
        have hiso := any_eq_find?_isSome (fun en : Nat × List Nat => decide (en.1 = u)) m
        rw [Bool.not_eq_true] at hon
        rw [hon] at hiso
        have hnone : m.find? (fun en : Nat × List Nat => decide (en.1 = u)) = none := by
          cases hfc : m.find? (fun en : Nat × List Nat => decide (en.1 = u)) with
          | none => rfl
          | some e0 => rw [hfc] at hiso; simp at hiso
        have hg : g u = [] := by
          have hsu := hs u
          rw [hnone] at hsu
          by_cases hg' : g u = []
          · exact hg'
          · rw [if_neg hg'] at hsu; simp at hsu
        rw [hnone, Option.none_or]
        have hgs : (gStep g (ConnEvent.connect u s)) u = g u ++ [s] := by
          simp [gStep]
        rw [hgs, hg, if_neg (by simp)]
        rw [List.find?_cons_of_pos _ (by simp)]
        rfl
      · have hgs : (gStep g (ConnEvent.connect u s)) u' = g u' := by
          simp [gStep, hu]
        rw [hgs]
        have hsingle : ([(u, [s])] : OnlineMap).find?
            (fun en => decide (en.1 = u')) = none := by
          rw [List.find?_eq_none]
          intro x hx
          rw [List.mem_singleton] at hx
          subst hx
          simpa using hu
        rw [hsingle, Option.or_none]
        exact hs u'
  | disconnect u s =>
    intro u'
    cases hfc : m.find? (fun en => decide (en.1 = u)) with
    | none =>
      have hstep : presenceMapStep m (.disconnect u s) = m := by
        simp only [presenceMapStep, handleDisconnect, hfc]
      rw [hstep]
      by_cases hu : u = u'
      · subst hu
        have hg : g u = [] := by
          have hsu := hs u
          rw [hfc] at hsu
          by_cases hg' : g u = []
          · exact hg'
          · rw [if_neg hg'] at hsu; simp at hsu
        have hgs : (gStep g (ConnEvent.disconnect u s)) u = [] := by
          simp [gStep, hg]
        rw [hgs, hfc]
        rfl
      · have hgs : (gStep g (ConnEvent.disconnect u s)) u' = g u' := by
          simp [gStep, hu]
        rw [hgs]
        exact hs u'
    | some entry =>
      have hkey : entry.1 = u := by simpa using List.find?_some hfc
      have hsu := hs u
      rw [hfc] at hsu
      have hge : g u ≠ [] ∧ entry.2 = g u := by
        by_cases hg' : g u = []
        · rw [if_pos hg'] at hsu; simp at hsu
        · rw [if_neg hg'] at hsu
          simp only [Option.map_some', Option.some.injEq] at hsu
          exact ⟨hg', hsu⟩
      by_cases hemp : entry.2.erase s = []
      · have hstep : presenceMapStep m (.disconnect u s) =
            m.filter (fun en => !(decide (en.1 = u))) := by
          simp only [presenceMapStep, handleDisconnect, hfc]
          rw [if_pos (by simpa using hemp)]
        rw [hstep]
        by_cases hu : u = u'
        · subst hu
          have hgs : (gStep g (ConnEvent.disconnect u s)) u = [] := by
            simp only [gStep, if_pos rfl]
            rw [← hge.2]
            exact hemp
          rw [hgs]
          have hnone : (m.filter (fun en => !(decide (en.1 = u)))).find?
              (fun en => decide (en.1 = u)) = none := by
            rw [List.find?_eq_none]
            intro x hx
            rw [List.mem_filter] at hx
            simpa using hx.2
          rw [hnone]
          rfl
        · have hgs : (gStep g (ConnEvent.disconnect u s)) u' = g u' := by
            simp [gStep, hu]
          rw [hgs, find?_filter_of_preserve m u u' hu]
          exact hs u'
      · have hfstD : ∀ (en : Nat × List Nat),
            ((fun en : Nat × List Nat =>
              if en.1 = u then (en.1, entry.2.erase s) else en) en).1 = en.1 := by
          intro en
          by_cases h : en.1 = u <;> simp [h]
        have hstep : presenceMapStep m (.disconnect u s) =
            m.map (fun en => if en.1 = u then (en.1, entry.2.erase s) else en) := by
          simp only [presenceMapStep, handleDisconnect, hfc]
          rw [if_neg (by simpa using hemp)]
        rw [hstep, find?_map_fst_preserving m _ hfstD u']
        by_cases hu : u = u'
        · subst hu
          rw [hfc]
          simp only [Option.map_some']
          have hgs : (gStep g (ConnEvent.disconnect u s)) u = (g u).erase s := by
            simp [gStep]
          have herase : (g u).erase s ≠ [] := by
            rw [← hge.2]
            exact hemp
          rw [hgs, if_neg herase, if_pos hkey]
          simp [hge.2]
        · have hgs : (gStep g (ConnEvent.disconnect u s)) u' = g u' := by
            simp [gStep, hu]
          rw [hgs]
          cases hfc' : m.find? (fun en => decide (en.1 = u')) with
          | none =>
            have hsu' := hs u'
            rw [hfc'] at hsu'
            simpa using hsu'
          | some e0 =>
            have hkey' : e0.1 = u' := by simpa using List.find?_some hfc'
            have hne : ¬(e0.1 = u) := by rw [hkey']; exact fun h => hu h.symm
            have hsu' := hs u'
            rw [hfc'] at hsu'
            simp only [Option.map_some'] at hsu' ⊢
            rw [if_neg hne]
            exact hsu'

theorem syncMap_foldl (trace : List ConnEvent) :
    ∀ (m : OnlineMap) (g : Nat → List Nat), SyncMap m g →
      SyncMap (trace.foldl presenceMapStep m) (trace.foldl gStep g) := by
  induction trace with
  | nil => intro m g h; exact h
  | cons e r ih =>
    intro m g h
    rw [List.foldl_cons, List.foldl_cons]
    exact ih _ _ (syncMap_step m g h e)

theorem runPresence_sync (trace : List ConnEvent) :
    SyncMap (runPresence trace).1 (openConns trace) := by
  have h1 : (runPresence trace).1 = trace.foldl presenceMapStep [] :=
    foldl_presenceStep_fst trace ([], [])
  rw [h1]
  apply syncMap_foldl
  intro u
  rfl

/-- C8: a user is reported online by user:check-online exactly when they
have at least one open authenticated connection; handleDisconnect is a no-op
for an unknown user, broadcasts user:offline and removes the registry entry
exactly when the disconnecting socket was the user's last one, and emits
nothing otherwise; concretely, with two simultaneous connections the user
stays online (with no user:offline) after the first disconnect and goes
offline, with a single user:offline broadcast, after the second. -/
theorem presence_online_iff_connected :
    (∀ (trace : List ConnEvent) (u : Nat),
      isOnline u (runPresence trace).1 = !(openConns trace u).isEmpty) ∧
    (∀ (u s : Nat) (m : OnlineMap),
      (m.find? (fun en => decide (en.1 = u)) = none → handleDisconnect u s m = (m, [])) ∧
      (∀ entry, m.find? (fun en => decide (en.1 = u)) = some entry →
        (entry.2.erase s = [] →
          (handleDisconnect u s m).2 = [PresenceEmit.userOffline u] ∧
          (handleDisconnect u s m).1.find? (fun en => decide (en.1 = u)) = none) ∧
        (entry.2.erase s ≠ [] → (handleDisconnect u s m).2 = []))) ∧
    (isOnline 0 (runPresence [ConnEvent.connect 0 1, ConnEvent.connect 0 2,
        ConnEvent.disconnect 0 1]).1 = true ∧
      (runPresence [ConnEvent.connect 0 1, ConnEvent.connect 0 2,
        ConnEvent.disconnect 0 1]).2.countP
        (fun x => decide (x = PresenceEmit.userOffline 0)) = 0 ∧
      (runPresence [ConnEvent.connect 0 1, ConnEvent.connect 0 2,
        ConnEvent.disconnect 0 1, ConnEvent.disconnect 0 2]).2 =
        [PresenceEmit.userOnline 0, PresenceEmit.userOnline 0,
         PresenceEmit.userOffline 0] ∧
      isOnline 0 (runPresence [ConnEvent.connect 0 1, ConnEvent.connect 0 2,
        ConnEvent.disconnect 0 1, ConnEvent.disconnect 0 2]).1 = false) := by
  refine ⟨?_, ?_, by decide⟩
  · intro trace u
    have hsync := runPresence_sync trace u
    rw [isOnline, any_eq_find?_isSome]
    have hiso := congrArg Option.isSome hsync
    rw [Option.isSome_map'] at hiso
    rw [hiso]
    by_cases hg : openConns trace u = []
    · rw [if_pos hg, hg]
      rfl
    · rw [if_neg hg]
      have hemp : (openConns trace u).isEmpty = false := by
        rw [List.isEmpty_eq_false]
        exact hg
      rw [hemp]
      rfl
  · intro u s m
    constructor
    · intro hn
      simp only [handleDisconnect, hn]
    · intro entry hfc
      constructor
      · intro hemp
        have hstep : handleDisconnect u s m =
            (m.filter (fun en => !(decide (en.1 = u))), [PresenceEmit.userOffline u]) := by
          simp only [handleDisconnect, hfc]
          rw [if_pos (by simpa using hemp)]
        rw [hstep]
        refine ⟨rfl, ?_⟩
        rw [List.find?_eq_none]
        intro x hx
        rw [List.mem_filter] at hx
        simpa using hx.2
      · intro hne
        have hstep : handleDisconnect u s m =
            (m.map (fun en => if en.1 = u then (en.1, entry.2.erase s) else en), []) := by
          simp only [handleDisconnect, hfc]
          rw [if_neg (by simpa using hne)]
        rw [hstep]

/-- Witness for C8: user 0's single socket 2 disconnects: user:offline is
broadcast and user 0 is removed from the registry. -/
theorem presence_online_iff_connected_witness :
    (handleDisconnect 0 2 [(0, [2])]).2 = [PresenceEmit.userOffline 0] ∧
    (handleDisconnect 0 2 [(0, [2])]).1.find? (fun en => decide (en.1 = 0)) = none :=
  ((presence_online_iff_connected.2.1 0 2 [(0, [2])]).2 (0, [2]) (by rfl)).1 (by rfl)

/-! ## C9 -/

/-- Counterexample for C9: user 0 is already online through socket 1 (first
conjunct), yet the second connection (socket 2) still broadcasts
user:online — handleConnection emits it unconditionally. -/
theorem user_online_rebroadcast_counterexample :
    isOnline 0 (handleConnection 0 1 []).1 = true ∧
    (handleConnection 0 2 (handleConnection 0 1 []).1).2 =
      [PresenceEmit.userOnline 0] := by
  decide

/-- C9 amended: the gateway broadcasts user:online on every successfully
authenticated connection, including a second simultaneous connection of an
already-online user — the broadcast is not restricted to the user's first
open connection. -/
theorem handleConnection_always_broadcasts_online (u s : Nat) (m : OnlineMap) :
    (handleConnection u s m).2 = [PresenceEmit.userOnline u] := rfl

end Campussales
